import Mathlib

/-!
Shallow embedding of `src/rotation.py` (padel rotation bot) in Lean 4.

Python dictionaries are modelled as association lists that keep insertion
order (`dictGet` models `dict.get`, returning the first binding of a key);
Python functions that can raise an exception are modelled as functions into
`Option`, with `none` standing for any raised exception. Python's `%` on
`int` with a positive right operand agrees with `Int.emod`, which is used
directly.
-/

set_option autoImplicit false

/-- Lookup in an association list, models Python `dict.get(key)` /
`dict[key]` (a Python dict has unique keys, so first-match lookup agrees
with it). -/
def dictGet {α : Type} (key : String) : List (String × α) → Option α
  | [] => none
  | (k, v) :: rest => if k = key then some v else dictGet key rest

/-- Key membership in an association list, models Python `key in dict`. -/
def dictMem {α : Type} (key : String) (l : List (String × α)) : Prop :=
  dictGet key l ≠ none

/-- Splitting a character list on the two-character separator `-W`,
models Python `week_string.split("-W")`: non-overlapping occurrences are
found left to right and removed, and the pieces between them are returned
(the result always has at least one element). -/
def splitOnDashW : List Char → List (List Char)
  | [] => [[]]
  | '-' :: 'W' :: rest => [] :: splitOnDashW rest
  | c :: rest =>
    match splitOnDashW rest with
    | [] => [[c]]
    | part :: parts => (c :: part) :: parts

/-- Numeric value of a digit list read left to right (helper for the
model of Python `int`). -/
def digitsVal (l : List Char) : Nat :=
  l.foldl (fun a c => a * 10 + (c.toNat - 48)) 0

/-- ASCII whitespace as stripped by Python `int` before parsing. -/
def isPySpace (c : Char) : Bool :=
  c = ' ' || c = '\t' || c = '\n' || c = '\r' || c = '\x0b' || c = '\x0c'

/-- Strip leading and trailing whitespace (helper for the model of
Python `int`). -/
def trimChars (l : List Char) : List Char :=
  ((l.dropWhile isPySpace).reverse.dropWhile isPySpace).reverse

/-- Parse an integer from a character list, models Python `int(s)` for a
base-10 string: optional surrounding whitespace, an optional sign, then a
non-empty run of decimal digits; anything else raises `ValueError`
(modelled as `none`). -/
def pyIntChars (l : List Char) : Option Int :=
  match trimChars l with
  | '-' :: ds =>
    if ds ≠ [] ∧ ds.all Char.isDigit then some (-(digitsVal ds : Int)) else none
  | '+' :: ds =>
    if ds ≠ [] ∧ ds.all Char.isDigit then some ((digitsVal ds : Int)) else none
  | ds =>
    if ds ≠ [] ∧ ds.all Char.isDigit then some ((digitsVal ds : Int)) else none

/-- Parse an integer from a string, models Python `int(s)`. -/
def pyInt (s : String) : Option Int :=
  pyIntChars s.data

/-- Embeds `get_week_number` (rotation.py, lines 23 to 25):
`int(week_string.split("-W")[1])`. Indexing `[1]` raises `IndexError`
when the split has a single piece, and `int` raises `ValueError` on a
non-numeric piece; both are modelled as `none`. -/
def get_week_number (week_string : String) : Option Int :=
  match splitOnDashW week_string.data with
  | _ :: second :: _ => pyIntChars second
  | _ => none

/-- Embeds `get_total_weeks_since_epoch` (rotation.py, lines 28 to 35):
tuple unpacking `year_str, week_str = week_string.split("-W")` raises
`ValueError` unless the split has exactly two pieces; then
`(year - 2000) * 52 + week`. -/
def get_total_weeks_since_epoch (week_string : String) : Option Int :=
  match splitOnDashW week_string.data with
  | [year_chars, week_chars] => do
    let year_int ← pyIntChars year_chars
    let week_int ← pyIntChars week_chars
    pure ((year_int - 2000) * 52 + week_int)
  | _ => none

/-- Schedule dataset as described by the JSON schedule file consumed by
rotation.py. Dictionaries keep their (insertion) iteration order as
association lists. -/
structure ScheduleData where
  default_rotation : List String
  start_week : String
  schedule_overrides : List (String × String)
  vacation_weeks : List (String × List String)
  special_messages : List (String × String)
deriving DecidableEq

/-- Position of the first occurrence of an element in a list, models
Python `list.index` (which is only called on members in the source). -/
def list_index (person : String) : List String → Nat
  | [] => 0
  | p :: rest => if p = person then 0 else list_index person rest + 1

/-- Embeds `get_vacation_coverage` (rotation.py, lines 38 to 50): `None`
when the person is not in `default_rotation`, otherwise the entry after
the person's first position, wrapping around modulo the length. `str(...)`
on a value that is already a string is the identity and is dropped. The
`week_string` argument is unused, exactly as in the source. -/
def get_vacation_coverage (person : String) (week_string : String)
    (schedule_data : ScheduleData) : Option String :=
  let rotation := schedule_data.default_rotation
  if person ∈ rotation then
    let person_index := list_index person rotation
    let next_index := (person_index + 1) % rotation.length
    some (rotation.getD next_index "")
  else
    none

/-- Embeds the `for person, vacation_weeks in ...vacation_weeks.items()`
loop of `get_responsible_person` (rotation.py, lines 65 to 70): scan the
entries in iteration order and return the first coverage that is truthy
(Python `if coverage:` is false for `None` and for the empty string). -/
def vacationScan (week_string : String) (schedule_data : ScheduleData) :
    List (String × List String) → Option String
  | [] => none
  | (person, vacation_weeks) :: rest =>
    if week_string ∈ vacation_weeks then
      match get_vacation_coverage person week_string schedule_data with
      | some coverage =>
        if coverage = "" then vacationScan week_string schedule_data rest
        else some coverage
      | none => vacationScan week_string schedule_data rest
    else
      vacationScan week_string schedule_data rest

/-- Embeds `get_responsible_person` (rotation.py, lines 53 to 84).
Branch order as in the source: vacation scan, then explicit override,
then the default-rotation computation. The rotation branch raises
(`none`) on a malformed `week_string` or `start_week` and on an empty
rotation (`ZeroDivisionError` from `% 0`); when `len(rotation) > 0` the
index `weeks_since_start % len(rotation)` is in range, so the `getD`
default is never taken. -/
def get_responsible_person (week_string : String)
    (schedule_data : ScheduleData) : Option (String × Option String) :=
  let special_message := dictGet week_string schedule_data.special_messages
  match vacationScan week_string schedule_data schedule_data.vacation_weeks with
  | some coverage => some (coverage, special_message)
  | none =>
    match dictGet week_string schedule_data.schedule_overrides with
    | some p => some (p, special_message)
    | none => do
      let total_weeks ← get_total_weeks_since_epoch week_string
      let start_total_weeks ←
        get_total_weeks_since_epoch schedule_data.start_week
      let weeks_since_start := total_weeks - start_total_weeks
      let rotation := schedule_data.default_rotation
      if rotation.length = 0 then
        none
      else
        let rotation_index := weeks_since_start % (rotation.length : Int)
        some (rotation.getD rotation_index.toNat "", special_message)

/-!
Model of Python `str.format(name=..., week=...)` as called by
`format_message` (rotation.py, lines 95 and 97). The template is scanned
exactly the way CPython does: an escape-blind brace-counting pass
delimits each replacement field, the field splits into field name,
optional conversion and format spec (`splitField`), the format spec has
its nested replacement fields expanded one level deep (`specLoop`), and
the looked-up value is rendered against the format-spec mini-language
(`parseSpec`, `renderStr`, `renderInt`). Every Python exception
(`KeyError`/`IndexError` for unknown or positional fields, `ValueError`
for stray braces, bad conversions or invalid specs, the recursion limit
for doubly nested specs) is modelled as `none`.

Outside the model, mapped to `none` although CPython can succeed, are:
attribute and index accesses on the known arguments (`name.upper` prints
a memory address), `!r`/`!a` conversions of string values (repr quoting),
the locale-dependent integer type `n`, the float presentation types
`e E f F g G %`, the `z` option, and surrogate code points for `c` (not
representable as a `Char`). These only narrow the success set on
templates whose placeholders are all known; no theorem below relies on
the formatter's value in that region.
-/

/-- Python values that can appear as `str.format` arguments here. -/
inductive PyVal where
  | str (s : String)
  | int (n : Int)

/-- Python `str()` of such a value. -/
def pyStr : PyVal → String
  | .str s => s
  | .int n => toString n

def isAlignChar (c : Char) : Bool :=
  c = '<' || c = '>' || c = '^' || c = '='

def isSignChar (c : Char) : Bool :=
  c = '+' || c = '-' || c = ' '

structure FormatSpec where
  fill : Option Char
  align : Option Char
  sign : Option Char
  zopt : Bool
  alt : Bool
  zeroPad : Bool
  width : Nat
  grouping : Option Char
  hasPrecision : Bool
  precision : Nat
  typ : Option Char

/-- Parse a (already nested-expanded) format spec per the format-spec
mini-language grammar. -/
def parseSpec (l : List Char) : Option FormatSpec :=
  let (fill, align, r1) :=
    match l with
    | c1 :: c2 :: r =>
      if isAlignChar c2 then (some c1, some c2, r)
      else if isAlignChar c1 then (none, some c1, c2 :: r)
      else (none, none, l)
    | [c1] => if isAlignChar c1 then (none, some c1, ([] : List Char)) else (none, none, l)
    | [] => (none, none, l)
  let (sign, r2) :=
    match r1 with
    | c :: r => if isSignChar c then (some c, r) else (none, r1)
    | [] => (none, r1)
  let (zopt, r3) :=
    match r2 with
    | 'z' :: r => (true, r)
    | _ => (false, r2)
  let (alt, r4) :=
    match r3 with
    | '#' :: r => (true, r)
    | _ => (false, r3)
  let (zeroPad, r5) :=
    match r4 with
    | '0' :: r => (true, r)
    | _ => (false, r4)
  let width := digitsVal (r5.takeWhile Char.isDigit)
  let r6 := r5.dropWhile Char.isDigit
  let (grouping, r7) :=
    match r6 with
    | ',' :: r => (some ',', r)
    | '_' :: r => (some '_', r)
    | _ => (none, r6)
  match r7 with
  | '.' :: r =>
    let pd := r.takeWhile Char.isDigit
    if pd = [] then none
    else
      let r8 := r.dropWhile Char.isDigit
      match r8 with
      | [] => some ⟨fill, align, sign, zopt, alt, zeroPad, width, grouping,
          true, digitsVal pd, none⟩
      | [t] => some ⟨fill, align, sign, zopt, alt, zeroPad, width, grouping,
          true, digitsVal pd, some t⟩
      | _ => none
  | [] => some ⟨fill, align, sign, zopt, alt, zeroPad, width, grouping,
      false, 0, none⟩
  | [t] => some ⟨fill, align, sign, zopt, alt, zeroPad, width, grouping,
      false, 0, some t⟩
  | _ => none

/-- Pad a body to a minimum width with the given fill and alignment
(centre split puts the smaller half on the left, as CPython does). -/
def padTo (fill : Char) (align : Char) (w : Nat) (body : List Char) :
    List Char :=
  if w ≤ body.length then body
  else
    let padn := w - body.length
    if align = '<' then body ++ List.replicate padn fill
    else if align = '^' then
      List.replicate (padn / 2) fill ++ body ++
        List.replicate (padn - padn / 2) fill
    else List.replicate padn fill ++ body

/-- Insert a separator after every `g` digits, processing a reversed
digit list; `k` counts digits left in the current group. -/
def groupLoop (sep : Char) (g : Nat) : Nat → List Char → List Char
  | _, [] => []
  | k, c :: rest =>
    if k = 0 then sep :: c :: groupLoop sep g (g - 1) rest
    else c :: groupLoop sep g (k - 1) rest

/-- Group digits from the right in blocks of `g` with separator `sep`. -/
def groupDigits (sep : Char) (g : Nat) (ds : List Char) : List Char :=
  (groupLoop sep g g ds.reverse).reverse

/-- Smallest digit count `d` such that `d` digits plus their group
separators reach width `area` (CPython's zero-fill-with-grouping rule). -/
def groupedPadCountAux (g area : Nat) : Nat → Nat → Nat
  | 0, d => d
  | fuel + 1, d =>
    if area ≤ d + (d - 1) / g then d else groupedPadCountAux g area fuel (d + 1)

def groupedPadCount (g area nd : Nat) : Nat :=
  groupedPadCountAux g area area nd

/-- Render a string value against a parsed spec; Python raises on `=`
alignment, sign, `z`, `#`, grouping, and types other than `s`. -/
def renderStr (ps : FormatSpec) (s : List Char) : Option (List Char) :=
  if ps.align = some '=' then none
  else if ps.sign.isSome then none
  else if ps.zopt then none
  else if ps.alt then none
  else if ps.grouping.isSome then none
  else if ¬(ps.typ = none ∨ ps.typ = some 's') then none
  else
    let t := if ps.hasPrecision then s.take ps.precision else s
    let fill := ps.fill.getD (if ps.zeroPad then '0' else ' ')
    let align := ps.align.getD '<'
    some (padTo fill align ps.width t)

/-- Render an integer against a parsed spec: types `c`, `d`, `b`, `o`,
`x`, `X` and the default, with sign, `#` prefixes, `,`/`_` grouping and
CPython's zero-fill rules. Locale type `n` and the float presentation
types are outside the model and map to `none`, as do surrogate code
points for `c` (not representable as a `Char`). -/
def renderInt (ps : FormatSpec) (n : Int) : Option (List Char) :=
  if ps.zopt then none
  else if ps.hasPrecision then none
  else if ps.typ = some 'c' then
    if ps.sign.isSome ∨ ps.alt ∨ ps.grouping.isSome then none
    else if 0 ≤ n ∧ (n < 0xd800 ∨ (0xe000 ≤ n ∧ n < 0x110000)) then
      let fill := ps.fill.getD (if ps.zeroPad then '0' else ' ')
      let align := ps.align.getD '>'
      let align := if align = '=' then '>' else align
      some (padTo fill align ps.width [Char.ofNat n.toNat])
    else none
  else
    let typc := ps.typ.getD 'd'
    if ¬(typc = 'd' ∨ typc = 'b' ∨ typc = 'o' ∨ typc = 'x' ∨ typc = 'X')
    then none
    else if ps.grouping = some ',' ∧ typc ≠ 'd' then none
    else
      let base : Nat :=
        if typc = 'b' then 2 else if typc = 'o' then 8
        else if typc = 'x' ∨ typc = 'X' then 16 else 10
      let digits :=
        if typc = 'X' then (Nat.toDigits base n.natAbs).map Char.toUpper
        else Nat.toDigits base n.natAbs
      let gsize := if typc = 'd' then 3 else 4
      let sign_str : List Char :=
        if n < 0 then ['-']
        else match ps.sign with
          | some '+' => ['+']
          | some ' ' => [' ']
          | _ => []
      let pfx : List Char :=
        if ps.alt then
          if typc = 'b' then ['0', 'b'] else if typc = 'o' then ['0', 'o']
          else if typc = 'x' then ['0', 'x'] else if typc = 'X' then ['0', 'X']
          else []
        else []
      let fill := ps.fill.getD (if ps.zeroPad then '0' else ' ')
      let align := ps.align.getD (if ps.zeroPad then '=' else '>')
      if align = '=' ∧ fill = '0' then
        let area := ps.width - sign_str.length - pfx.length
        let dcount :=
          match ps.grouping with
          | some _ => groupedPadCount gsize area digits.length
          | none => max digits.length area
        let digits2 := List.replicate (dcount - digits.length) '0' ++ digits
        let grouped :=
          match ps.grouping with
          | some sep => groupDigits sep gsize digits2
          | none => digits2
        some (sign_str ++ pfx ++ grouped)
      else
        let grouped :=
          match ps.grouping with
          | some sep => groupDigits sep gsize digits
          | none => digits
        if align = '=' then
          let padn := ps.width -
            (sign_str.length + pfx.length + grouped.length)
          some (sign_str ++ pfx ++ List.replicate padn fill ++ grouped)
        else
          some (padTo fill align ps.width (sign_str ++ pfx ++ grouped))

/-- Python `format(value, spec)` for the modelled value kinds. -/
def formatValue (v : PyVal) (spec : List Char) : Option (List Char) :=
  match parseSpec spec with
  | none => none
  | some ps =>
    match v with
    | .str s => renderStr ps s.data
    | .int n => renderInt ps n

/-- Split a replacement field into field name, optional conversion and
format spec, per CPython parse_field: the first `!` or `:` outside
square brackets splits; a conversion is the single following character
and must be followed by `:` or the end of the field. -/
def splitField : List Char → Bool → Option (List Char × Option Char × List Char)
  | [], _ => some ([], none, [])
  | c :: rest, inIndex =>
    if inIndex then
      (splitField rest (c != ']')).map (fun p => (c :: p.1, p.2.1, p.2.2))
    else if c = '[' then
      (splitField rest true).map (fun p => (c :: p.1, p.2.1, p.2.2))
    else if c = '!' then
      match rest with
      | [] => none
      | cv :: rest2 =>
        match rest2 with
        | [] => some ([], some cv, [])
        | ':' :: rest3 => some ([], some cv, rest3)
        | _ => none
    else if c = ':' then
      some ([], none, rest)
    else
      (splitField rest inIndex).map (fun p => (c :: p.1, p.2.1, p.2.2))

/-- Leading argument name of a field name (before attribute or index
accesses). -/
def argNameOf (fn : List Char) : List Char :=
  fn.takeWhile (fun c => c != '.' && c != '[')

/-- Look up a field name among the keyword arguments `name` and `week`.
Unknown names (including positional fields) raise KeyError/IndexError in
Python; attribute and index accesses on the known arguments are outside
the model. Both map to `none`. -/
def lookupArg (name : String) (week : Int) (fn : List Char) : Option PyVal :=
  let an := argNameOf fn
  if an = "name".data then
    if an = fn then some (.str name) else none
  else if an = "week".data then
    if an = fn then some (.int week) else none
  else none

/-- Apply a conversion: `!s` is `str()`; `!r`/`!a` on an integer are its
decimal repr; `!r`/`!a` on a string (quote and escape rules) are outside
the model; other conversions raise ValueError. -/
def applyConv : PyVal → Option Char → Option PyVal
  | v, none => some v
  | v, some 's' => some (.str (pyStr v))
  | .int n, some 'r' => some (.str (toString n))
  | .int n, some 'a' => some (.str (toString n))
  | _, some _ => none

/-- Process a nested replacement field occurring inside a format spec
(its own spec is brace-free by construction). -/
def processNested (name : String) (week : Int) (f : List Char) :
    Option (List Char) := do
  let (fn, cv, sp2) ← splitField f false
  let v ← lookupArg name week fn
  let v2 ← applyConv v cv
  formatValue v2 sp2

/-- States of the spec-expansion scan: literal text, just after an
unescaped closing brace, or inside a nested field collecting `acc`
(reversed). -/
inductive SpecState where
  | text
  | rbrace
  | field (acc : List Char)

/-- Expand the nested replacement fields of a format spec exactly as the
recursive vformat call does at the last allowed depth: `\x7b\x7b` and
`\x7d\x7d` are escaped braces, a nested field is substituted by its
formatted value, and a brace inside a nested field (deeper nesting)
raises the recursion error. -/
def specLoop (name : String) (week : Int) :
    SpecState → List Char → Option (List Char)
  | .text, [] => some []
  | .text, c :: rest =>
    if c = '{' then specLoop name week (.field []) rest
    else if c = '}' then specLoop name week .rbrace rest
    else (specLoop name week .text rest).map (fun t => c :: t)
  | .rbrace, [] => none
  | .rbrace, c :: rest =>
    if c = '}' then (specLoop name week .text rest).map (fun t => '}' :: t)
    else none
  | .field _, [] => none
  | .field acc, c :: rest =>
    if c = '{' then
      if acc = [] then
        (specLoop name week .text rest).map (fun t => '{' :: t)
      else none
    else if c = '}' then
      match processNested name week acc.reverse with
      | some out => (specLoop name week .text rest).map (fun t => out ++ t)
      | none => none
    else specLoop name week (.field (c :: acc)) rest

/-- Process one complete replacement field of a template: split it,
look up the argument, apply the conversion, expand the spec's nested
fields, and format. -/
def processField (name : String) (week : Int) (f : List Char) :
    Option (List Char) := do
  let (fn, cv, sp) ← splitField f false
  let v ← lookupArg name week fn
  let v2 ← applyConv v cv
  let sp2 ← specLoop name week .text sp
  formatValue v2 sp2

/-- States of the top-level template scan: literal text, just after an
unescaped closing brace, or inside a replacement field collecting `acc`
(reversed) at brace depth `depth` (the field-boundary scan counts every
brace, escape-blind, exactly like CPython's markup iterator). -/
inductive MarkupState where
  | text
  | rbrace
  | field (acc : List Char) (depth : Nat)

/-- Top-level scan of a template: `\x7b\x7b` and `\x7d\x7d` are escaped
braces in literal text, a replacement field is delimited by the
brace-counting boundary scan and handed to `processField`, and a stray
closing brace or an unterminated field raises `ValueError`. -/
def formatLoop (name : String) (week : Int) :
    MarkupState → List Char → Option (List Char)
  | .text, [] => some []
  | .text, c :: rest =>
    if c = '{' then formatLoop name week (.field [] 1) rest
    else if c = '}' then formatLoop name week .rbrace rest
    else (formatLoop name week .text rest).map (fun t => c :: t)
  | .rbrace, [] => none
  | .rbrace, c :: rest =>
    if c = '}' then (formatLoop name week .text rest).map (fun t => '}' :: t)
    else none
  | .field _ _, [] => none
  | .field acc depth, c :: rest =>
    if c = '{' then
      if acc = [] then
        (formatLoop name week .text rest).map (fun t => '{' :: t)
      else formatLoop name week (.field ('{' :: acc) (depth + 1)) rest
    else if c = '}' then
      if depth = 1 then
        match processField name week acc.reverse with
        | some out =>
          (formatLoop name week .text rest).map (fun t => out ++ t)
        | none => none
      else formatLoop name week (.field ('}' :: acc) (depth - 1)) rest
    else formatLoop name week (.field (c :: acc) depth) rest

/-- Model of Python `template.format(name=name, week=week)` on
strings. -/
def pyFormat (template : String) (name : String) (week : Int) :
    Option String :=
  (formatLoop name week .text template.data).map String.mk


/-- Does a nested spec field reference a placeholder other than `name`
or `week`? Parse failures are not references. -/
def nestedRefsUnknown (f : List Char) : Bool :=
  match splitField f false with
  | none => false
  | some (fn, _, _) =>
    if argNameOf fn = "name".data ∨ argNameOf fn = "week".data then false
    else true

/-- Scanner over a format spec, mirroring `specLoop`, that reports
whether some nested replacement field references a placeholder other
than `name` or `week`. -/
def specScanLoop : SpecState → List Char → Bool
  | .text, [] => false
  | .text, c :: rest =>
    if c = '{' then specScanLoop (.field []) rest
    else if c = '}' then specScanLoop .rbrace rest
    else specScanLoop .text rest
  | .rbrace, [] => false
  | .rbrace, c :: rest =>
    if c = '}' then specScanLoop .text rest else false
  | .field _, [] => false
  | .field acc, c :: rest =>
    if c = '{' then
      if acc = [] then specScanLoop .text rest else false
    else if c = '}' then
      nestedRefsUnknown acc.reverse || specScanLoop .text rest
    else specScanLoop (.field (c :: acc)) rest

/-- Does a complete replacement field reference a placeholder other than
`name` or `week`, either by its own argument name or inside its format
spec? -/
def fieldRefsUnknown (f : List Char) : Bool :=
  match splitField f false with
  | none => false
  | some (fn, _, sp) =>
    if argNameOf fn = "name".data ∨ argNameOf fn = "week".data then
      specScanLoop SpecState.text sp
    else true

/-- Scanner over a whole template, mirroring `formatLoop`, that reports
whether some replacement field references a placeholder other than
`name` or `week`. It reads the template exactly the way `str.format`
does; a stray-brace parse error stops the scan without such a field
having been referenced. -/
def unknownFieldScan : MarkupState → List Char → Bool
  | .text, [] => false
  | .text, c :: rest =>
    if c = '{' then unknownFieldScan (.field [] 1) rest
    else if c = '}' then unknownFieldScan .rbrace rest
    else unknownFieldScan .text rest
  | .rbrace, [] => false
  | .rbrace, c :: rest =>
    if c = '}' then unknownFieldScan .text rest else false
  | .field _ _, [] => false
  | .field acc depth, c :: rest =>
    if c = '{' then
      if acc = [] then unknownFieldScan .text rest
      else unknownFieldScan (.field ('{' :: acc) (depth + 1)) rest
    else if c = '}' then
      if depth = 1 then
        fieldRefsUnknown acc.reverse || unknownFieldScan .text rest
      else unknownFieldScan (.field ('}' :: acc) (depth - 1)) rest
    else unknownFieldScan (.field (c :: acc) depth) rest

/-- Presence of a replacement field referencing a placeholder other than
`name` or `week` in a template. -/
def hasUnknownField (l : List Char) : Bool :=
  unknownFieldScan MarkupState.text l


/-- Embeds `format_message` (rotation.py, lines 87 to 99): extract the
week number, then format the special message when it is truthy (Python
`if special_message:` is false for `None` and for the empty string),
otherwise format the template. -/
def format_message (template : String) (name : String) (week_string : String)
    (special_message : Option String) : Option String := do
  let week_number ← get_week_number week_string
  match special_message with
  | some sm =>
    if sm ≠ "" then pyFormat sm name week_number
    else pyFormat template name week_number
  | none => pyFormat template name week_number

/-! ## Concrete schedule datasets used in examples -/

/-- Schedule of the spec's rotation example: six people starting at
2025-W31, no overrides, vacations or special messages. -/
def exampleSchedule : ScheduleData :=
  { default_rotation := ["Esteban", "Chema", "Adrian", "Chito", "Vanish", "JC"]
    start_week := "2025-W31"
    schedule_overrides := []
    vacation_weeks := []
    special_messages := [] }

/-- Four-person schedule for the vacation wrap-around example. -/
def wrapSchedule : ScheduleData :=
  { default_rotation := ["A", "B", "C", "D"]
    start_week := "2025-W01"
    schedule_overrides := []
    vacation_weeks := []
    special_messages := [] }

/-- Schedule where week 2025-W34 is both overridden (to Zed) and inside
the vacation set of rotation member Ana; the earlier vacation entry Ghost
is not a rotation member. -/
def vacationDemoSchedule : ScheduleData :=
  { default_rotation := ["Ana", "Bob", "Cleo"]
    start_week := "2025-W31"
    schedule_overrides := [("2025-W34", "Zed")]
    vacation_weeks := [("Ghost", ["2025-W34"]), ("Ana", ["2025-W34"])]
    special_messages := [] }

/-- Schedule where rotation member Ana is on vacation in week 2025-W40,
the week is overridden to B, and Ana's next-in-rotation covering person
has the empty string as name. -/
def c1CexSchedule : ScheduleData :=
  { default_rotation := ["Ana", ""]
    start_week := "2025-W31"
    schedule_overrides := [("2025-W40", "B")]
    vacation_weeks := [("Ana", ["2025-W40"])]
    special_messages := [] }

/-- Schedule whose override for 2025-W32 names Zed, who is not a member
of the one-person rotation. -/
def c2CexSchedule : ScheduleData :=
  { default_rotation := ["Ana"]
    start_week := "2025-W31"
    schedule_overrides := [("2025-W32", "Zed")]
    vacation_weeks := []
    special_messages := [] }

/-- Schedule with an empty rotation and an override keyed by a malformed
week identifier. -/
def c9CexSchedule : ScheduleData :=
  { default_rotation := []
    start_week := "2025-W31"
    schedule_overrides := [("bad-week", "X")]
    vacation_weeks := [("Ana", ["bad-week"])]
    special_messages := [] }

/-- Schedule with a special message for week 2025-W32. -/
def specialDemoSchedule : ScheduleData :=
  { default_rotation := ["Ana", "Bob"]
    start_week := "2025-W31"
    schedule_overrides := []
    vacation_weeks := []
    special_messages := [("2025-W32", "Holiday: {name} brings the balls")] }

/-- Schedule whose first vacation entry for week 2025-W32 names Ghost,
who is not in the rotation, followed by an entry for rotation member
Ana. -/
def c10Schedule : ScheduleData :=
  { default_rotation := ["Ana", "Bob"]
    start_week := "2025-W31"
    schedule_overrides := []
    vacation_weeks := [("Ghost", ["2025-W32"]), ("Ana", ["2025-W32"])]
    special_messages := [] }

/-! ## Helper lemmas -/

theorem list_index_lt_length {person : String} {l : List String}
    (h : person ∈ l) : list_index person l < l.length := by
  induction l with
  | nil => cases h
  | cons p rest ih =>
    rw [list_index]
    by_cases hp : p = person
    · simp [hp]
    · have hm : person ∈ rest := by
        cases h with
        | head => exact absurd rfl hp
        | tail _ hm => exact hm
      have := ih hm
      simp [hp]
      omega

theorem getD_mem_of_lt {l : List String} {i : Nat} (h : i < l.length)
    (d : String) : l.getD i d ∈ l := by
  rw [List.getD_eq_getElem l d h]
  exact List.getElem_mem h

theorem get_vacation_coverage_mem {person week : String}
    {s : ScheduleData} {c : String}
    (h : get_vacation_coverage person week s = some c) :
    c ∈ s.default_rotation := by
  by_cases hmem : person ∈ s.default_rotation
  · simp only [get_vacation_coverage, hmem, if_true, Option.some.injEq] at h
    have hlen : 0 < s.default_rotation.length :=
      List.length_pos.mpr (List.ne_nil_of_mem hmem)
    have hidx :
        (list_index person s.default_rotation + 1) %
          s.default_rotation.length < s.default_rotation.length :=
      Nat.mod_lt _ hlen
    rw [← h]
    exact getD_mem_of_lt hidx ""
  · simp [get_vacation_coverage, hmem] at h

theorem vacationScan_mem {week : String} {s : ScheduleData}
    {l : List (String × List String)} {c : String}
    (h : vacationScan week s l = some c) : c ∈ s.default_rotation := by
  induction l with
  | nil => simp [vacationScan] at h
  | cons entry rest ih =>
    obtain ⟨person, weeks⟩ := entry
    rw [vacationScan] at h
    by_cases hw : week ∈ weeks
    · simp [hw] at h
      match hcov : get_vacation_coverage person week s with
      | none => rw [hcov] at h; exact ih h
      | some cov =>
        rw [hcov] at h
        by_cases hc : cov = ""
        · simp [hc] at h
          exact ih h
        · simp [hc] at h
          rw [← h]
          exact get_vacation_coverage_mem hcov
    · simp [hw] at h
      exact ih h

theorem vacationScan_append_none {week : String} {s : ScheduleData}
    {pre : List (String × List String)}
    (hpre : ∀ q qv, (q, qv) ∈ pre → week ∈ qv →
      get_vacation_coverage q week s = none ∨
      get_vacation_coverage q week s = some "")
    (l : List (String × List String)) :
    vacationScan week s (pre ++ l) = vacationScan week s l := by
  induction pre with
  | nil => rfl
  | cons entry rest ih =>
    obtain ⟨person, weeks⟩ := entry
    rw [List.cons_append, vacationScan]
    by_cases hw : week ∈ weeks
    · have hcov := hpre person weeks (List.mem_cons_self _ _) hw
      cases hcov with
      | inl hnone =>
        simp [hw, hnone]
        exact ih fun q qv hq hwq => hpre q qv (List.mem_cons_of_mem _ hq) hwq
      | inr hempty =>
        simp [hw, hempty]
        exact ih fun q qv hq hwq => hpre q qv (List.mem_cons_of_mem _ hq) hwq
    · simp [hw]
      exact ih fun q qv hq hwq => hpre q qv (List.mem_cons_of_mem _ hq) hwq

theorem vacationScan_congr {week : String} {s s2 : ScheduleData}
    (hrot : s.default_rotation = s2.default_rotation)
    (l : List (String × List String)) :
    vacationScan week s l = vacationScan week s2 l := by
  induction l with
  | nil => rfl
  | cons entry rest ih =>
    obtain ⟨person, weeks⟩ := entry
    rw [vacationScan, vacationScan, get_vacation_coverage,
      get_vacation_coverage, hrot, ih]

/-- Behaviour of the rotation branch: with no truthy vacation coverage and
no override, the result is the rotation entry at the floored-modulo
offset. -/
theorem resolve_rotation_branch {week : String} {s : ScheduleData}
    {tw tws : Int}
    (hvac : vacationScan week s s.vacation_weeks = none)
    (hov : dictGet week s.schedule_overrides = none)
    (hw : get_total_weeks_since_epoch week = some tw)
    (hs : get_total_weeks_since_epoch s.start_week = some tws)
    (hrot : s.default_rotation ≠ []) :
    get_responsible_person week s =
      some (s.default_rotation.getD
        (((tw - tws) % (s.default_rotation.length : Int)).toNat) "",
        dictGet week s.special_messages) := by
  have hlen : s.default_rotation.length ≠ 0 := by
    simpa using hrot
  rw [get_responsible_person, hvac, hov]
  simp [hw, hs, hlen]

theorem padTo_width_zero (fill align : Char) (body : List Char) :
    padTo fill align 0 body = body := by
  simp [padTo]

theorem signed_decimal_eq_toString (n : Int) :
    String.mk ((if n < 0 then ['-'] else []) ++ Nat.toDigits 10 n.natAbs) =
      toString n := by
  by_cases hn : n < 0
  · rw [if_pos hn]
    obtain ⟨m, rfl⟩ := Int.eq_negSucc_of_lt_zero hn
    show String.mk ('-' :: Nat.toDigits 10 (m + 1)) =
      "-" ++ String.mk (Nat.toDigits 10 (m + 1))
    rfl
  · rw [if_neg hn]
    obtain ⟨m, rfl⟩ := Int.eq_ofNat_of_zero_le (Int.not_lt.mp hn)
    rfl

theorem formatValue_int_nil (wn : Int) :
    formatValue (PyVal.int wn) [] =
      some ((if wn < 0 then ['-'] else []) ++ Nat.toDigits 10 wn.natAbs) := by
  have h0 : formatValue (PyVal.int wn) [] =
      renderInt ⟨none, none, none, false, false, false, 0, none,
        false, 0, none⟩ wn := rfl
  rw [h0, renderInt]
  simp [padTo_width_zero]

theorem lookupArg_eq_none_of_unknown (name : String) (week : Int)
    (fn : List Char)
    (h : ¬(argNameOf fn = "name".data ∨ argNameOf fn = "week".data)) :
    lookupArg name week fn = none := by
  have h2 := not_or.mp h
  simp [lookupArg, h2.1, h2.2]

theorem processNested_none_of_unknown (name : String) (week : Int)
    (f : List Char) (h : nestedRefsUnknown f = true) :
    processNested name week f = none := by
  match hsplit : splitField f false with
  | none =>
    rw [nestedRefsUnknown, hsplit] at h
    simp at h
  | some (fn, cv, sp2) =>
    rw [nestedRefsUnknown, hsplit] at h
    by_cases hknown : argNameOf fn = "name".data ∨ argNameOf fn = "week".data
    · simp [hknown] at h
    · rw [processNested]
      simp [hsplit, lookupArg_eq_none_of_unknown name week fn hknown]

theorem specLoop_none_of_unknown (name : String) (week : Int)
    (st : SpecState) (l : List Char)
    (h : specScanLoop st l = true) :
    specLoop name week st l = none := by
  induction st, l using specScanLoop.induct with
  | case1 =>
    rw [specScanLoop.eq_def] at h
    simp at h
  | case2 rest ih =>
    rw [specScanLoop.eq_def] at h
    simp at h
    rw [specLoop.eq_def]
    simpa using ih h
  | case3 rest hne ih =>
    rw [specScanLoop.eq_def] at h
    simp at h
    rw [specLoop.eq_def]
    simpa using ih h
  | case4 c rest h1 h2 ih =>
    rw [specScanLoop.eq_def] at h
    simp [h1, h2] at h
    rw [specLoop.eq_def]
    simp [h1, h2, ih h]
  | case5 =>
    rw [specScanLoop.eq_def] at h
    simp at h
  | case6 rest ih =>
    rw [specScanLoop.eq_def] at h
    simp at h
    rw [specLoop.eq_def]
    simp [ih h]
  | case7 c rest hne =>
    rw [specScanLoop.eq_def] at h
    simp [hne] at h
  | case8 acc =>
    rw [specScanLoop.eq_def] at h
    simp at h
  | case9 rest ih =>
    rw [specScanLoop.eq_def] at h
    simp at h
    rw [specLoop.eq_def]
    simpa using ih h
  | case10 acc rest hacc =>
    rw [specScanLoop.eq_def] at h
    simp [hacc] at h
  | case11 acc rest hne ih =>
    rw [specScanLoop.eq_def] at h
    simp at h
    rw [specLoop.eq_def]
    rcases h with h | h
    · simp [processNested_none_of_unknown name week acc.reverse h]
    · cases hpn : processNested name week acc.reverse with
      | none => simp [hpn]
      | some out => simp [hpn, ih h]
  | case12 acc c rest h1 h2 ih =>
    rw [specScanLoop.eq_def] at h
    simp [h1, h2] at h
    rw [specLoop.eq_def]
    simp [h1, h2, ih h]

theorem processField_none_of_unknown (name : String) (week : Int)
    (f : List Char) (h : fieldRefsUnknown f = true) :
    processField name week f = none := by
  match hsplit : splitField f false with
  | none =>
    rw [fieldRefsUnknown, hsplit] at h
    simp at h
  | some (fn, cv, sp) =>
    rw [fieldRefsUnknown, hsplit] at h
    by_cases hknown : argNameOf fn = "name".data ∨ argNameOf fn = "week".data
    · simp [hknown] at h
      rw [processField]
      simp only [hsplit]
      cases hv : lookupArg name week fn with
      | none => simp [hv]
      | some v =>
        cases hc : applyConv v cv with
        | none => simp [hv, hc]
        | some v2 =>
          simp [hv, hc, specLoop_none_of_unknown name week SpecState.text sp h]
    · rw [processField]
      simp [hsplit, lookupArg_eq_none_of_unknown name week fn hknown]

theorem formatLoop_none_of_unknown (name : String) (week : Int)
    (st : MarkupState) (l : List Char)
    (h : unknownFieldScan st l = true) :
    formatLoop name week st l = none := by
  induction st, l using unknownFieldScan.induct with
  | case1 =>
    rw [unknownFieldScan.eq_def] at h
    simp at h
  | case2 rest ih =>
    rw [unknownFieldScan.eq_def] at h
    simp at h
    rw [formatLoop.eq_def]
    simpa using ih h
  | case3 rest hne ih =>
    rw [unknownFieldScan.eq_def] at h
    simp at h
    rw [formatLoop.eq_def]
    simpa using ih h
  | case4 c rest h1 h2 ih =>
    rw [unknownFieldScan.eq_def] at h
    simp [h1, h2] at h
    rw [formatLoop.eq_def]
    simp [h1, h2, ih h]
  | case5 =>
    rw [unknownFieldScan.eq_def] at h
    simp at h
  | case6 rest ih =>
    rw [unknownFieldScan.eq_def] at h
    simp at h
    rw [formatLoop.eq_def]
    simp [ih h]
  | case7 c rest hne =>
    rw [unknownFieldScan.eq_def] at h
    simp [hne] at h
  | case8 acc depth =>
    rw [unknownFieldScan.eq_def] at h
    simp at h
  | case9 depth rest ih =>
    rw [unknownFieldScan.eq_def] at h
    simp at h
    rw [formatLoop.eq_def]
    simpa using ih h
  | case10 acc depth rest hacc ih =>
    rw [unknownFieldScan.eq_def] at h
    simp [hacc] at h
    rw [formatLoop.eq_def]
    simp [hacc, ih h]
  | case11 acc rest hne ih =>
    rw [unknownFieldScan.eq_def] at h
    simp at h
    rw [formatLoop.eq_def]
    rcases h with h | h
    · simp [processField_none_of_unknown name week acc.reverse h]
    · cases hpf : processField name week acc.reverse with
      | none => simp [hpf]
      | some out => simp [hpf, ih h]
  | case12 acc depth rest hdepth hne ih =>
    rw [unknownFieldScan.eq_def] at h
    simp [hdepth] at h
    rw [formatLoop.eq_def]
    simp [hdepth, ih h]
  | case13 acc depth c rest h1 h2 ih =>
    rw [unknownFieldScan.eq_def] at h
    simp [h1, h2] at h
    rw [formatLoop.eq_def]
    simp [h1, h2, ih h]

/-- Unknown placeholder makes `str.format` raise: templates whose scan
finds a replacement field referencing a placeholder other than `name` or
`week` always format to `none`. -/
theorem pyFormat_none_of_unknown {template : String} (name : String)
    (week : Int) (h : hasUnknownField template.data = true) :
    pyFormat template name week = none := by
  rw [pyFormat,
    formatLoop_none_of_unknown name week MarkupState.text template.data h]
  rfl

/-! ## Claims -/

/-- C1, counterexample: week 2025-W40 is in the overrides and in the
vacation set of rotation member Ana, yet `get_responsible_person` returns
the overridden person B, not Ana's vacation coverage (the next rotation
entry, the empty name, which Python `if coverage:` treats as false). -/
theorem empty_coverage_shadowed_by_override_cex :
    "Ana" ∈ c1CexSchedule.default_rotation ∧
    dictGet "Ana" c1CexSchedule.vacation_weeks = some ["2025-W40"] ∧
    dictGet "2025-W40" c1CexSchedule.schedule_overrides = some "B" ∧
    get_vacation_coverage "Ana" "2025-W40" c1CexSchedule = some "" ∧
    get_responsible_person "2025-W40" c1CexSchedule = some ("B", none) := by
  decide

/-- C1, amended: the vacation check precedes the explicit override, first
match wins, where a vacation entry matches only when its computed coverage
is a non-empty name: if the entries before `(person, vw)` yield no truthy
coverage for the week, `person`'s vacation set contains the week, and
`person`'s coverage is the non-empty `c`, then the resolver returns `c`,
whatever `schedule_overrides` holds. -/
theorem vacation_precedes_override (week : String) (s : ScheduleData)
    (pre post : List (String × List String)) (person : String)
    (vw : List String) (c : String)
    (hsplit : s.vacation_weeks = pre ++ (person, vw) :: post)
    (hpre : ∀ q qv, (q, qv) ∈ pre → week ∈ qv →
      get_vacation_coverage q week s = none ∨
      get_vacation_coverage q week s = some "")
    (hmem : week ∈ vw)
    (hcov : get_vacation_coverage person week s = some c)
    (hne : c ≠ "") :
    get_responsible_person week s =
      some (c, dictGet week s.special_messages) := by
  have hscan : vacationScan week s s.vacation_weeks = some c := by
    rw [hsplit, vacationScan_append_none hpre, vacationScan]
    simp [hmem, hcov, hne]
  rw [get_responsible_person, hscan]

/-- C1, witness: in `vacationDemoSchedule` the override for 2025-W34 says
Zed, Ghost's entry is skipped (not a rotation member), and Ana's vacation
makes Bob responsible. -/
theorem vacation_precedes_override_witness :
    get_responsible_person "2025-W34" vacationDemoSchedule =
      some ("Bob", none) ∧
    dictGet "2025-W34" vacationDemoSchedule.schedule_overrides =
      some "Zed" ∧
    ("Bob" : String) ≠ "Zed" := by
  refine ⟨?_, by decide, by decide⟩
  refine vacation_precedes_override "2025-W34" vacationDemoSchedule
    [("Ghost", ["2025-W34"])] [] "Ana" ["2025-W34"] "Bob" rfl ?_
    (by decide) (by decide) (by decide)
  intro q qv hq hwq
  simp at hq
  obtain ⟨rfl, rfl⟩ := hq
  left
  decide

/-- C2, counterexample: with a non-empty rotation, the override branch
returns Zed, who is not a member of `default_rotation`. -/
theorem override_returns_nonmember_cex :
    c2CexSchedule.default_rotation ≠ [] ∧
    get_responsible_person "2025-W32" c2CexSchedule = some ("Zed", none) ∧
    "Zed" ∉ c2CexSchedule.default_rotation := by
  decide

/-- C2, amended: `get_responsible_person` is a pure function (hence
deterministic); whenever the week identifier and the start week both
parse and the rotation is non-empty it returns a result, and that person
is a member of `default_rotation` provided the week is not an override
key (an override may name anyone). -/
theorem resolve_total_and_rotation_membership (week : String)
    (s : ScheduleData) (tw tws : Int)
    (hw : get_total_weeks_since_epoch week = some tw)
    (hs : get_total_weeks_since_epoch s.start_week = some tws)
    (hrot : s.default_rotation ≠ []) :
    ∃ p m, get_responsible_person week s = some (p, m) ∧
      (dictGet week s.schedule_overrides = none →
        p ∈ s.default_rotation) := by
  cases hscan : vacationScan week s s.vacation_weeks with
  | some c =>
    refine ⟨c, dictGet week s.special_messages, ?_, fun _ => ?_⟩
    · rw [get_responsible_person, hscan]
    · exact vacationScan_mem hscan
  | none =>
    cases hov : dictGet week s.schedule_overrides with
    | some v =>
      refine ⟨v, dictGet week s.special_messages, ?_, fun hnone => ?_⟩
      · rw [get_responsible_person, hscan, hov]
      · cases hnone
    | none =>
      have hlen : 0 < s.default_rotation.length :=
        List.length_pos.mpr hrot
      have hlenz : (s.default_rotation.length : Int) ≠ 0 := by
        exact_mod_cast Nat.pos_iff_ne_zero.mp hlen
      have hnonneg : 0 ≤ (tw - tws) % (s.default_rotation.length : Int) :=
        Int.emod_nonneg _ hlenz
      have hlt : (tw - tws) % (s.default_rotation.length : Int) <
          (s.default_rotation.length : Int) :=
        Int.emod_lt_of_pos _ (by exact_mod_cast hlen)
      have hidx : ((tw - tws) % (s.default_rotation.length : Int)).toNat <
          s.default_rotation.length := by
        omega
      refine ⟨_, dictGet week s.special_messages,
        resolve_rotation_branch hscan hov hw hs hrot, fun _ => ?_⟩
      exact getD_mem_of_lt hidx ""

/-- C2, witness: in the six-person example schedule, 2025-W34 parses,
there is no override, and the returned person Chito is in the rotation. -/
theorem resolve_total_and_rotation_membership_witness :
    ∃ p m,
      get_responsible_person "2025-W34" exampleSchedule = some (p, m) ∧
      (dictGet "2025-W34" exampleSchedule.schedule_overrides = none →
        p ∈ exampleSchedule.default_rotation) :=
  resolve_total_and_rotation_membership "2025-W34" exampleSchedule
    1334 1331 rfl rfl (by decide)

/-- C3: with no vacation match and no override, the resolver returns
`rotation[(total_weeks(W) - total_weeks(start)) mod len]` with floored
modulo (the index lies in `[0, len)` even before the start week), and on
the six-person example schedule the weeks W31 to W36 of 2025 map to the
six people in order, W37 cycles back to Esteban, and W30 (before the
start week) maps to JC via index `-1 mod 6 = 5`. -/
theorem default_rotation_formula :
    (∀ (week : String) (s : ScheduleData) (tw tws : Int),
      vacationScan week s s.vacation_weeks = none →
      dictGet week s.schedule_overrides = none →
      get_total_weeks_since_epoch week = some tw →
      get_total_weeks_since_epoch s.start_week = some tws →
      s.default_rotation ≠ [] →
      0 ≤ (tw - tws) % (s.default_rotation.length : Int) ∧
      (tw - tws) % (s.default_rotation.length : Int) <
        (s.default_rotation.length : Int) ∧
      get_responsible_person week s =
        some (s.default_rotation.getD
          (((tw - tws) % (s.default_rotation.length : Int)).toNat) "",
          dictGet week s.special_messages)) ∧
    get_responsible_person "2025-W31" exampleSchedule =
      some ("Esteban", none) ∧
    get_responsible_person "2025-W32" exampleSchedule =
      some ("Chema", none) ∧
    get_responsible_person "2025-W33" exampleSchedule =
      some ("Adrian", none) ∧
    get_responsible_person "2025-W34" exampleSchedule =
      some ("Chito", none) ∧
    get_responsible_person "2025-W35" exampleSchedule =
      some ("Vanish", none) ∧
    get_responsible_person "2025-W36" exampleSchedule =
      some ("JC", none) ∧
    get_responsible_person "2025-W37" exampleSchedule =
      some ("Esteban", none) ∧
    get_responsible_person "2025-W30" exampleSchedule =
      some ("JC", none) := by
  refine ⟨?_, by decide, by decide, by decide, by decide, by decide,
    by decide, by decide, by decide⟩
  intro week s tw tws hvac hov hw hs hrot
  have hlen : 0 < s.default_rotation.length := List.length_pos.mpr hrot
  have hlenz : (s.default_rotation.length : Int) ≠ 0 := by
    exact_mod_cast Nat.pos_iff_ne_zero.mp hlen
  exact ⟨Int.emod_nonneg _ hlenz,
    Int.emod_lt_of_pos _ (by exact_mod_cast hlen),
    resolve_rotation_branch hvac hov hw hs hrot⟩

/-- C3, witness: the general branch formula applied to week 2025-W33 of
the example schedule, with total weeks 1333 and 1331. -/
theorem default_rotation_formula_witness :
    0 ≤ (1333 - 1331 : Int) % (6 : Int) ∧
    (1333 - 1331 : Int) % (6 : Int) < (6 : Int) ∧
    get_responsible_person "2025-W33" exampleSchedule =
      some (exampleSchedule.default_rotation.getD
        (((1333 - 1331 : Int) % (6 : Int)).toNat) "", none) :=
  default_rotation_formula.1 "2025-W33" exampleSchedule 1333 1331
    rfl rfl rfl rfl (by decide)

/-- C4: rotation periodicity in the resolver's own linear week-counting
scheme: if the second week lies `len(default_rotation)` weeks after the
first (their total-week counts differ by the rotation length) and no
override or vacation applies to either week, both weeks resolve to the
same person. -/
theorem rotation_periodicity (w w2 : String) (s : ScheduleData) (a b : Int)
    (hvac : vacationScan w s s.vacation_weeks = none)
    (hvac2 : vacationScan w2 s s.vacation_weeks = none)
    (hov : dictGet w s.schedule_overrides = none)
    (hov2 : dictGet w2 s.schedule_overrides = none)
    (hw : get_total_weeks_since_epoch w = some a)
    (hw2 : get_total_weeks_since_epoch w2 =
      some (a + (s.default_rotation.length : Int)))
    (hs : get_total_weeks_since_epoch s.start_week = some b)
    (hrot : s.default_rotation ≠ []) :
    Option.map Prod.fst (get_responsible_person w s) =
      Option.map Prod.fst (get_responsible_person w2 s) := by
  rw [resolve_rotation_branch hvac hov hw hs hrot,
    resolve_rotation_branch hvac2 hov2 hw2 hs hrot]
  have hmod : (a + (s.default_rotation.length : Int) - b) %
      (s.default_rotation.length : Int) =
      (a - b) % (s.default_rotation.length : Int) := by
    have harr : a + (s.default_rotation.length : Int) - b =
        (a - b) + 1 * (s.default_rotation.length : Int) := by ring
    rw [harr, Int.add_mul_emod_self]
  rw [hmod]
  simp

/-- C4, witness: weeks 2025-W31 and 2025-W37 are six weeks apart and both
resolve to Esteban on the six-person example schedule. -/
theorem rotation_periodicity_witness :
    Option.map Prod.fst
      (get_responsible_person "2025-W31" exampleSchedule) =
    Option.map Prod.fst
      (get_responsible_person "2025-W37" exampleSchedule) :=
  rotation_periodicity "2025-W31" "2025-W37" exampleSchedule 1331 1331
    rfl rfl rfl rfl rfl rfl rfl (by decide)

/-- C5: for a rotation member at first position `i`, the vacation
coverage is the entry at index `(i + 1) mod len` (an index always in
range); when the member is the last entry the coverage wraps to the head,
and on the four-person schedule the coverage for D is A. -/
theorem vacation_coverage_next_in_rotation :
    (∀ (s : ScheduleData) (person week : String),
      person ∈ s.default_rotation →
      (list_index person s.default_rotation + 1) %
          s.default_rotation.length < s.default_rotation.length ∧
      get_vacation_coverage person week s =
        some (s.default_rotation.getD
          ((list_index person s.default_rotation + 1) %
            s.default_rotation.length) "") ∧
      (list_index person s.default_rotation =
          s.default_rotation.length - 1 →
        get_vacation_coverage person week s =
          some (s.default_rotation.getD 0 ""))) ∧
    get_vacation_coverage "D" "2025-W02" wrapSchedule = some "A" := by
  refine ⟨?_, by decide⟩
  intro s person week hmem
  have hlen : 0 < s.default_rotation.length :=
    List.length_pos.mpr (List.ne_nil_of_mem hmem)
  have hform : get_vacation_coverage person week s =
      some (s.default_rotation.getD
        ((list_index person s.default_rotation + 1) %
          s.default_rotation.length) "") := by
    simp only [get_vacation_coverage, hmem, if_true]
  refine ⟨Nat.mod_lt _ hlen, hform, fun hlast => ?_⟩
  have hzero : (list_index person s.default_rotation + 1) %
      s.default_rotation.length = 0 := by
    rw [hlast,
      show s.default_rotation.length - 1 + 1 = s.default_rotation.length
        from by omega,
      Nat.mod_self]
  rw [hform, hzero]

/-- C5, witness: member C of the four-person schedule sits at index 2 and
is covered by the entry at index 3, namely D. -/
theorem vacation_coverage_next_in_rotation_witness :
    (list_index "C" wrapSchedule.default_rotation + 1) %
        wrapSchedule.default_rotation.length <
      wrapSchedule.default_rotation.length ∧
    get_vacation_coverage "C" "2025-W02" wrapSchedule =
      some (wrapSchedule.default_rotation.getD
        ((list_index "C" wrapSchedule.default_rotation + 1) %
          wrapSchedule.default_rotation.length) "") ∧
    (list_index "C" wrapSchedule.default_rotation =
        wrapSchedule.default_rotation.length - 1 →
      get_vacation_coverage "C" "2025-W02" wrapSchedule =
        some (wrapSchedule.default_rotation.getD 0 "")) :=
  vacation_coverage_next_in_rotation.1 wrapSchedule "C" "2025-W02"
    (by decide)

/-- C6: whichever branch produces the person, the second component of the
result is exactly `special_messages.get(week)`. -/
theorem special_message_branch_independent (week : String)
    (s : ScheduleData) (p : String) (m : Option String)
    (h : get_responsible_person week s = some (p, m)) :
    m = dictGet week s.special_messages := by
  rw [get_responsible_person] at h
  cases hscan : vacationScan week s s.vacation_weeks with
  | some c =>
    rw [hscan] at h
    simp at h
    exact h.2.symm
  | none =>
    rw [hscan] at h
    cases hov : dictGet week s.schedule_overrides with
    | some v =>
      rw [hov] at h
      simp at h
      exact h.2.symm
    | none =>
      rw [hov] at h
      cases hw : get_total_weeks_since_epoch week with
      | none => rw [hw] at h; simp at h
      | some tw =>
        rw [hw] at h
        cases hs : get_total_weeks_since_epoch s.start_week with
        | none => rw [hs] at h; simp at h
        | some tws =>
          rw [hs] at h
          by_cases hlen : s.default_rotation.length = 0
          · simp [hlen] at h
          · simp [hlen] at h
            exact h.2.symm

/-- C6, witness: the special message of week 2025-W32 is returned next to
the rotation person Bob. -/
theorem special_message_branch_independent_witness :
    (some "Holiday: {name} brings the balls" : Option String) =
      dictGet "2025-W32" specialDemoSchedule.special_messages :=
  special_message_branch_independent "2025-W32" specialDemoSchedule
    "Bob" (some "Holiday: {name} brings the balls") (by decide)

/-- C7, counterexample: an empty special message is present (`some ""`)
but Python `if special_message:` is false for it, so the template, not
the special message, is formatted: the call returns `some "X A"` where
formatting the special message itself would give `some ""`. -/
theorem empty_special_message_not_used_cex :
    format_message "X {name}" "A" "2025-W33" (some "") = some "X A" ∧
    pyFormat "" "A" 33 = some "" ∧
    (some "X A" : Option String) ≠ (some "" : Option String) := by
  decide

/-- C7, amended: `format_message` substitutes the person for the `name`
placeholder and the extracted week-of-year integer for the `week`
placeholder, and a *non-empty* special message is used as the template
instead of the default template (an empty one is skipped); the spec's
example formats to "Week 33: Adrian". -/
theorem special_message_priority_and_substitution :
    (∀ (template name week_string sm : String) (wn : Int),
      sm ≠ "" → get_week_number week_string = some wn →
      format_message template name week_string (some sm) =
        pyFormat sm name wn) ∧
    (∀ (name : String) (wn : Int),
      pyFormat "{name}" name wn = some name ∧
      pyFormat "{week}" name wn = some (toString wn)) ∧
    format_message "Week {week}: {name}" "Adrian" "2025-W33" none =
      some "Week 33: Adrian" := by
  refine ⟨?_, ?_, by decide⟩
  · intro template name ws sm wn hsm hwn
    simp [format_message, hwn, hsm]
  · intro name wn
    constructor
    · have h1 : pyFormat "{name}" name wn =
          some (String.mk (padTo ' ' '<' 0 name.data ++ [])) := rfl
      rw [h1, padTo_width_zero, List.append_nil]
    · have h1 : pyFormat "{week}" name wn =
          ((formatValue (PyVal.int wn) []).map (fun out => out ++ [])).map
            String.mk := rfl
      rw [h1, formatValue_int_nil]
      simp [signed_decimal_eq_toString]

/-- C7, witness: the non-empty special message is the one formatted, at a
concrete input. -/
theorem special_message_priority_witness :
    format_message "Regular: {name}" "Chema" "2025-W52"
      (some "Special: {name} on week {week}!") =
      pyFormat "Special: {name} on week {week}!" "Chema" 52 :=
  special_message_priority_and_substitution.1
    "Regular: {name}" "Chema" "2025-W52"
    "Special: {name} on week {week}!" 52 (by decide) (by decide)

/-- C8, counterexample: the template references the unknown placeholder
`responsible`, yet with a non-empty special message supplied the call
returns a string instead of failing (the template is never formatted). -/
theorem special_message_bypasses_bad_template_cex :
    hasUnknownField "{responsible}".data = true ∧
    format_message "{responsible}" "A" "2025-W33" (some "All good") =
      some "All good" := by
  decide

/-- C8, amended: when the template is the message actually chosen (no
special message, or an empty one that Python treats as absent), a
template referencing a placeholder other than `name` or `week` makes
`format_message` fail, and the error propagates as `none`; a non-empty
special message bypasses the template entirely. -/
theorem unknown_placeholder_fails (template name week_string : String)
    (h : hasUnknownField template.data = true) :
    format_message template name week_string none = none ∧
    format_message template name week_string (some "") = none := by
  have hfmt : ∀ wn : Int, pyFormat template name wn = none := fun wn =>
    pyFormat_none_of_unknown name wn h
  constructor <;>
  · cases hwn : get_week_number week_string with
    | none => simp [format_message, hwn]
    | some wn => simp [format_message, hwn, hfmt]

/-- C8, witness: the template referencing `responsible` fails for a
well-formed week, as does one referencing `foo` from inside a format
spec; a format spec on a known placeholder is not an unknown reference
and formats successfully. -/
theorem unknown_placeholder_fails_witness :
    (format_message "{responsible}" "Ana" "2025-W33" none = none ∧
      format_message "{responsible}" "Ana" "2025-W33" (some "") = none) ∧
    hasUnknownField "{name:{foo}}".data = true ∧
    format_message "{name:{foo}}" "Ana" "2025-W33" none = none ∧
    hasUnknownField "{name:>5}".data = false ∧
    format_message "{name:>5}" "Ana" "2025-W33" none = some "  Ana" :=
  ⟨unknown_placeholder_fails "{responsible}" "Ana" "2025-W33" (by decide),
    by decide,
    (unknown_placeholder_fails "{name:{foo}}" "Ana" "2025-W33" (by decide)).1,
    by decide, by decide⟩

/-- C9, counterexample: the week identifier `bad-week` is malformed and
the rotation is empty, yet `get_responsible_person` returns the override
X instead of failing: the override branch runs before the week is ever
parsed or the rotation indexed. -/
theorem malformed_week_resolved_by_override_cex :
    get_total_weeks_since_epoch "bad-week" = none ∧
    c9CexSchedule.default_rotation = [] ∧
    get_responsible_person "bad-week" c9CexSchedule =
      some ("X", none) := by
  decide

/-- C9, amended: a malformed week identifier (or start week) or an empty
rotation makes `get_responsible_person` fail, provided neither the
vacation branch nor the override branch resolves the week first; when one
of them matches, the malformed identifier or empty rotation is never
examined and a person is returned. -/
theorem malformed_or_empty_rotation_fails (week : String)
    (s : ScheduleData)
    (hvac : vacationScan week s s.vacation_weeks = none)
    (hov : dictGet week s.schedule_overrides = none)
    (hbad : get_total_weeks_since_epoch week = none ∨
      get_total_weeks_since_epoch s.start_week = none ∨
      s.default_rotation = []) :
    get_responsible_person week s = none := by
  rw [get_responsible_person, hvac, hov]
  rcases hbad with hb | hb | hb
  · simp [hb]
  · cases hw : get_total_weeks_since_epoch week with
    | none => simp [hw]
    | some tw => simp [hw, hb]
  · cases hw : get_total_weeks_since_epoch week with
    | none => simp [hw]
    | some tw =>
      cases hs : get_total_weeks_since_epoch s.start_week with
      | none => simp [hw, hs]
      | some tws => simp [hw, hs, hb]

/-- C9, witness: the malformed week `nope` fails on the example schedule,
which has no vacations or overrides. -/
theorem malformed_or_empty_rotation_fails_witness :
    get_responsible_person "nope" exampleSchedule = none :=
  malformed_or_empty_rotation_fails "nope" exampleSchedule rfl rfl
    (Or.inl (by decide))

/-- C10: a leading vacation entry whose person is not a rotation member
has coverage `None` and is skipped: resolution proceeds exactly as if the
entry were absent, scanning the later entries and possibly falling
through to the override or rotation branches. -/
theorem nonmember_vacation_skipped (week q : String) (qv : List String)
    (rest : List (String × List String)) (s : ScheduleData)
    (hvw : s.vacation_weeks = (q, qv) :: rest)
    (hq : q ∉ s.default_rotation) :
    get_vacation_coverage q week s = none ∧
    get_responsible_person week s =
      get_responsible_person week { s with vacation_weeks := rest } := by
  have hcov : get_vacation_coverage q week s = none := by
    simp [get_vacation_coverage, hq]
  refine ⟨hcov, ?_⟩
  have hscan : vacationScan week s s.vacation_weeks =
      vacationScan week s rest := by
    rw [hvw, vacationScan]
    by_cases hw : week ∈ qv
    · simp [hw, hcov]
    · simp [hw]
  have hcongr : vacationScan week s rest =
      vacationScan week { s with vacation_weeks := rest } rest :=
    @vacationScan_congr week s { s with vacation_weeks := rest } rfl rest
  rw [get_responsible_person, get_responsible_person, hscan, hcongr]

/-- C10, witness: the Ghost entry for 2025-W32 is skipped and the
schedule resolves as if only Ana's entry existed (Ana's vacation then
makes Bob responsible). -/
theorem nonmember_vacation_skipped_witness :
    get_vacation_coverage "Ghost" "2025-W32" c10Schedule = none ∧
    get_responsible_person "2025-W32" c10Schedule =
      get_responsible_person "2025-W32"
        { c10Schedule with vacation_weeks := [("Ana", ["2025-W32"])] } :=
  nonmember_vacation_skipped "2025-W32" "Ghost" ["2025-W32"]
    [("Ana", ["2025-W32"])] c10Schedule rfl (by decide)

